import Mathlib

/-!
Shallow embedding of the host-side GPU resource initialization utilities
(shader-source validation, buffer initialization, texture upload) and proofs
of their specified properties.

Bytes are modelled as natural numbers below 256, 32-bit words as natural
numbers below 2 ^ 32; machine arithmetic that can wrap is modelled with an
explicit modulus.  Functions that can fail (the Rust source panics) are
modelled with Except carrying a structured error value.
-/

namespace Wgpu

/-! ## Shader-source validator: make_spirv -/

/-- The fixed SPIR-V magic constant 0x0723_0203 from make_spirv. -/
def MAGIC_NUMBER : Nat := 0x07230203

/-- Failure modes of make_spirv.  The Rust source panics; each panic site is
modelled as a structured error: the length assertion, the indexing panic of
words[0] on an empty word sequence, and the magic-number assertion (which
names the observed value). -/
inductive MakeSpirvError where
  | lengthNotMultipleOf4 (len : Nat)
  | indexOutOfRange
  | wrongMagic (observed : Nat)
deriving DecidableEq

/-- The validated shader source: a sequence of 32-bit words tagged as binary
shader IR (ShaderSource::SpirV). -/
inductive ShaderSource where
  | SpirV (words : List Nat)
deriving DecidableEq

/-- One 32-bit little-endian word assembled from four bytes, as the
reinterpretation of a byte slice as a u32 slice produces on a little-endian
platform (and as the copy branch produces identically, since it copies the
same bytes). -/
def wordOfBytes (b0 b1 b2 b3 : Nat) : Nat :=
  b0 + 256 * b1 + 65536 * b2 + 16777216 * b3

/-- Reinterpret a byte sequence as a sequence of 32-bit words, four bytes per
word.  This is the denotation of both branches of make_spirv: the in-place
reinterpretation (data.align_to) and the copy into a fresh aligned vector
(copy_nonoverlapping) decode the same bytes to the same words; raw pointer
alignment has no observable effect on the produced word values. -/
def bytesToWords : List Nat → List Nat
  | b0 :: b1 :: b2 :: b3 :: rest => wordOfBytes b0 b1 b2 b3 :: bytesToWords rest
  | _ => []

/-- Serialize a sequence of 32-bit words back to bytes with the same
endianness, for the round-trip property. -/
def wordsToBytes : List Nat → List Nat
  | [] => []
  | w :: rest =>
      w % 256 :: w / 256 % 256 :: w / 65536 % 256 :: w / 16777216 % 256 ::
        wordsToBytes rest

/-- Embedding of make_spirv: assert the length is a multiple of 4, decode the
bytes to words, read the leading word (indexing out of range on an empty
sequence), assert it equals the magic constant, and return the words as a
binary shader source. -/
def make_spirv (data : List Nat) : Except MakeSpirvError ShaderSource :=
  if data.length % 4 ≠ 0 then
    .error (.lengthNotMultipleOf4 data.length)
  else
    match bytesToWords data with
    | [] => .error .indexOutOfRange
    | w :: rest =>
      if w ≠ MAGIC_NUMBER then
        .error (.wrongMagic w)
      else
        .ok (.SpirV (w :: rest))

/-! ## Buffer initializer: create_buffer_init -/

/-- Modelled from the spec: the copy-buffer alignment granularity, a fixed
power-of-two platform constant (the source crate constant
COPY_BUFFER_ALIGNMENT is not under src/); the spec gives 4 as its value. -/
def COPY_BUFFER_ALIGNMENT : Nat := 4

/-- Describes a buffer to be created with initial contents. -/
structure BufferInitDescriptor where
  label : Option String
  contents : List Nat
  usage : Nat
deriving DecidableEq

/-- The created buffer: its visible size and its visible contents after the
map / copy / zero-fill / unmap sequence. -/
structure Buffer where
  size : Nat
  data : List Nat
deriving DecidableEq

/-- Embedding of create_buffer_init: compute the padding
COPY_BUFFER_ALIGNMENT - len % COPY_BUFFER_ALIGNMENT (always positive, a full
extra block when len is already aligned), allocate a mapped buffer of the
padded size, copy the contents into the prefix [0, len), zero every byte of
the suffix [len, padded_size), and unmap.  The visible contents are therefore
the input bytes followed by padding zeros. -/
def create_buffer_init (descriptor : BufferInitDescriptor) : Buffer :=
  let unpadded_size := descriptor.contents.length
  let padding := COPY_BUFFER_ALIGNMENT - unpadded_size % COPY_BUFFER_ALIGNMENT
  let padded_size := padding + unpadded_size
  { size := padded_size
    data := descriptor.contents ++ List.replicate (padded_size - unpadded_size) 0 }

/-! ## Texture uploader: create_texture_with_data -/

/-- Modulus of 32-bit machine arithmetic: the per-mip byte accounting in the
source is performed on u32 values. -/
def UINT32_MOD : Nat := 2 ^ 32

/-- A three-dimensional extent (width, height, depth-or-layer-count). -/
structure Extent3d where
  width : Nat
  height : Nat
  depth : Nat
deriving DecidableEq

/-- Texture dimensionality. -/
inductive TextureDimension where
  | D1
  | D2
  | D3
deriving DecidableEq

/-- Modelled from the spec: the format-description collaborator (the
format-description table is outside src/) yields block dimensions (block
width and block height in texels) and the byte size of one block for a pixel
format; a format is identified here with its description record. -/
structure TextureFormat where
  block_dimensions : Nat × Nat
  block_size : Nat
deriving DecidableEq

/-- Modelled from the spec: desc.format.describe() returns the block
dimensions and block byte size of the format. -/
def TextureFormat.describe (format : TextureFormat) : TextureFormat :=
  format

/-- The texture descriptor fields consumed by create_texture_with_data. -/
structure TextureDescriptor where
  size : Extent3d
  mip_level_count : Nat
  dimension : TextureDimension
  format : TextureFormat
deriving DecidableEq

/-- Modelled from the spec: Extent3d.at_mip_level computes the logical extent
of a mip level (this method lives outside src/): the base size halved per
level, with a minimum of 1 per axis. -/
def Extent3d.at_mip_level (e : Extent3d) (level : Nat) : Extent3d :=
  { width := max 1 (e.width / 2 ^ level)
    height := max 1 (e.height / 2 ^ level)
    depth := max 1 (e.depth / 2 ^ level) }

/-- Modelled from the spec: Extent3d.physical_size (outside src/) rounds the
width and height up to the nearest multiple of the block dimensions of the
format; the depth is unaffected. -/
def Extent3d.physical_size (e : Extent3d) (format : TextureFormat) : Extent3d :=
  { width := (e.width + format.block_dimensions.1 - 1) / format.block_dimensions.1
      * format.block_dimensions.1
    height := (e.height + format.block_dimensions.2 - 1) / format.block_dimensions.2
      * format.block_dimensions.2
    depth := e.depth }

/-- The physical (block-rounded) extent of one mip level, as computed inside
the upload loop: mip_extent.at_mip_level(mip).physical_size(format). -/
def mipPhysical (format : TextureFormat) (mip_extent : Extent3d) (mip : Nat) :
    Extent3d :=
  (mip_extent.at_mip_level mip).physical_size format

/-- width_blocks of one mip level: physical width divided by the block width. -/
def widthBlocks (format : TextureFormat) (mip_extent : Extent3d) (mip : Nat) :
    Nat :=
  (mipPhysical format mip_extent mip).width / format.describe.block_dimensions.1

/-- height_blocks of one mip level: physical height divided by the block
height. -/
def heightBlocks (format : TextureFormat) (mip_extent : Extent3d) (mip : Nat) :
    Nat :=
  (mipPhysical format mip_extent mip).height / format.describe.block_dimensions.2

/-- bytes_per_row of one mip level: width_blocks * block_size, in u32
arithmetic. -/
def bytesPerRow (format : TextureFormat) (mip_extent : Extent3d) (mip : Nat) :
    Nat :=
  widthBlocks format mip_extent mip * format.describe.block_size % UINT32_MOD

/-- data_size of one mip level: bytes_per_row * height_blocks, in u32
arithmetic. -/
def dataSize (format : TextureFormat) (mip_extent : Extent3d) (mip : Nat) :
    Nat :=
  bytesPerRow format mip_extent mip * heightBlocks format mip_extent mip
    % UINT32_MOD

/-- An Origin3d value. -/
structure Origin3d where
  x : Nat
  y : Nat
  z : Nat
deriving DecidableEq

/-- The TextureDataLayout argument of a write call. -/
structure TextureDataLayout where
  offset : Nat
  bytes_per_row : Nat
  rows_per_image : Nat
deriving DecidableEq

/-- One write_texture call issued to the external queue collaborator: the
target mip level and origin, the byte slice handed over, the data layout and
the physical copy extent. -/
structure WriteCall where
  mip_level : Nat
  origin : Origin3d
  contents : List Nat
  layout : TextureDataLayout
  extent : Extent3d
deriving DecidableEq

/-- Failure modes of create_texture_with_data: the mip-level-count u8
conversion failure, and the out-of-bounds slice panic
data[binary_offset..end_offset] when the source buffer is too short (carrying
the attempted bounds and the buffer length). -/
inductive TexError where
  | mipCountOverflow (count : Nat)
  | sliceOutOfBounds (start stop len : Nat)
deriving DecidableEq

/-- An observable effect on the external collaborators: creating the texture
on the device, or one write call on the queue. -/
inductive Event where
  | createTexture (desc : TextureDescriptor)
  | writeTexture (w : WriteCall)
deriving DecidableEq

/-- The (layer, mip) iteration order of the upload loop: for layer in
0..layer_iterations, for mip in 0..mip_level_count. -/
def subImagePairs (layer_iterations mip_level_count : Nat) :
    List (Nat × Nat) :=
  (List.range layer_iterations).flatMap fun layer =>
    (List.range mip_level_count).map fun mip => (layer, mip)

/-- The body of the upload loop of create_texture_with_data, one step per
(layer, mip) pair carrying the running binary_offset: compute the physical
mip size and data_size, slice [binary_offset, end_offset) out of the source
buffer (failing out of bounds when end_offset exceeds the buffer length),
issue the write call, and advance the offset. -/
def uploadLoop (format : TextureFormat) (mip_extent : Extent3d)
    (data : List Nat) :
    List (Nat × Nat) → Nat → List WriteCall × Except TexError Unit
  | [], _ => ([], .ok ())
  | (layer, mip) :: rest, binary_offset =>
    if binary_offset + dataSize format mip_extent mip ≤ data.length then
      ({ mip_level := mip
         origin := { x := 0, y := 0, z := layer }
         contents :=
           (data.drop binary_offset).take (dataSize format mip_extent mip)
         layout := { offset := 0
                     bytes_per_row := bytesPerRow format mip_extent mip
                     rows_per_image := 0 }
         extent := mipPhysical format mip_extent mip }
        :: (uploadLoop format mip_extent data rest
              (binary_offset + dataSize format mip_extent mip)).1,
       (uploadLoop format mip_extent data rest
         (binary_offset + dataSize format mip_extent mip)).2)
    else
      ([], .error (.sliceOutOfBounds binary_offset
            (binary_offset + dataSize format mip_extent mip) data.length))

/-- layer_iterations of the upload: 1 for a 3D texture, otherwise the depth
field of the descriptor size. -/
def layerIterations (desc : TextureDescriptor) : Nat :=
  if desc.dimension = TextureDimension.D3 then 1 else desc.size.depth

/-- mip_extent of the upload: the full descriptor size for a 3D texture,
otherwise the descriptor size with depth replaced by 1. -/
def mipExtentOf (desc : TextureDescriptor) : Extent3d :=
  if desc.dimension = TextureDimension.D3 then desc.size
  else { desc.size with depth := 1 }

/-- The (layer, mip) pairs visited for a descriptor. -/
def descPairs (desc : TextureDescriptor) : List (Nat × Nat) :=
  subImagePairs (layerIterations desc) desc.mip_level_count

/-- The per-sub-image byte sizes of a descriptor, in visit order. -/
def descSizes (desc : TextureDescriptor) : List Nat :=
  (descPairs desc).map fun p => dataSize desc.format (mipExtentOf desc) p.2

/-- Embedding of create_texture_with_data: create the texture via the
external collaborator (this happens first, before any validation), convert
the mip level count to u8 (failing when it exceeds 255), then run the upload
loop from binary_offset 0.  The result is the trace of external effects in
order together with the outcome. -/
def create_texture_with_data (desc : TextureDescriptor) (data : List Nat) :
    List Event × Except TexError Unit :=
  if desc.mip_level_count ≤ 255 then
    let r := uploadLoop desc.format (mipExtentOf desc) data (descPairs desc) 0
    (Event.createTexture desc :: r.1.map Event.writeTexture, r.2)
  else
    ([Event.createTexture desc], .error (.mipCountOverflow desc.mip_level_count))

/-- The write calls recorded in a trace, in order. -/
def traceWrites : List Event → List WriteCall
  | [] => []
  | Event.createTexture _ :: rest => traceWrites rest
  | Event.writeTexture w :: rest => w :: traceWrites rest

/-! ## Lemmas about the upload loop -/

/-- Extracting write calls from a mapped trace is the identity. -/
theorem traceWrites_map (ws : List WriteCall) :
    traceWrites (ws.map Event.writeTexture) = ws := by
  induction ws with
  | nil => rfl
  | cons w rest ih => simp [traceWrites, ih]

/-- The write calls of a trace beginning with the texture creation event. -/
theorem traceWrites_create_cons (desc : TextureDescriptor) (es : List Event) :
    traceWrites (Event.createTexture desc :: es) = traceWrites es := rfl

/-- The loop succeeds exactly when the source buffer holds the whole
remaining sub-image data. -/
theorem uploadLoop_ok_iff (format : TextureFormat) (mip_extent : Extent3d)
    (data : List Nat) :
    ∀ (pairs : List (Nat × Nat)) (off : Nat), off ≤ data.length →
      ((uploadLoop format mip_extent data pairs off).2 = .ok () ↔
        off + (pairs.map fun p => dataSize format mip_extent p.2).sum
          ≤ data.length)
  | [], off, hoff => by
    simpa [uploadLoop] using hoff
  | (layer, mip) :: rest, off, hoff => by
    by_cases h : off + dataSize format mip_extent mip ≤ data.length
    · have ih := uploadLoop_ok_iff format mip_extent data rest
        (off + dataSize format mip_extent mip) h
      simp only [uploadLoop, if_pos h, List.map_cons, List.sum_cons]
      rw [ih]
      omega
    · simp only [uploadLoop, if_neg h, List.map_cons, List.sum_cons]
      constructor
      · intro hc
        exact absurd hc (by simp)
      · intro hc
        omega

/-- When the source buffer is shorter than the remaining sub-image data, the
loop ends in a slice-out-of-bounds error carrying the buffer length. -/
theorem uploadLoop_err_of_lt (format : TextureFormat) (mip_extent : Extent3d)
    (data : List Nat) :
    ∀ (pairs : List (Nat × Nat)) (off : Nat), off ≤ data.length →
      data.length
          < off + (pairs.map fun p => dataSize format mip_extent p.2).sum →
      ∃ s e, (uploadLoop format mip_extent data pairs off).2
        = .error (.sliceOutOfBounds s e data.length)
  | [], off, hoff, hlt => by
    simp only [List.map_nil, List.sum_nil] at hlt
    omega
  | (layer, mip) :: rest, off, hoff, hlt => by
    by_cases h : off + dataSize format mip_extent mip ≤ data.length
    · have ih := uploadLoop_err_of_lt format mip_extent data rest
        (off + dataSize format mip_extent mip) h (by
          simp only [List.map_cons, List.sum_cons] at hlt
          omega)
      simp only [uploadLoop, if_pos h]
      exact ih
    · refine ⟨off, off + dataSize format mip_extent mip, ?_⟩
      simp [uploadLoop, if_neg h]

/-- The concatenation of the byte slices handed to the issued write calls is
always a prefix of the unread part of the source buffer: no slice reaches
past the end of the buffer. -/
theorem uploadLoop_flatten_prefix (format : TextureFormat)
    (mip_extent : Extent3d) (data : List Nat) :
    ∀ (pairs : List (Nat × Nat)) (off : Nat),
      (((uploadLoop format mip_extent data pairs off).1.map
          WriteCall.contents).flatten) <+: data.drop off
  | [], off => by
    simp [uploadLoop]
  | (layer, mip) :: rest, off => by
    by_cases h : off + dataSize format mip_extent mip ≤ data.length
    · obtain ⟨t, ht⟩ := uploadLoop_flatten_prefix format mip_extent data rest
        (off + dataSize format mip_extent mip)
      simp only [uploadLoop, if_pos h, List.map_cons, List.flatten_cons]
      refine ⟨t, ?_⟩
      rw [← List.drop_drop] at ht
      rw [List.append_assoc, ht, List.take_append_drop]
    · simp [uploadLoop, if_neg h]

/-- On success, the issued write calls carry, in order, exactly the visited
(layer, mip) pairs: mip level and origin z from the pair, origin x and y
zero, the layout with offset 0, the computed bytes_per_row and
rows_per_image 0, and the physical mip extent. -/
theorem uploadLoop_fst_shape (format : TextureFormat) (mip_extent : Extent3d)
    (data : List Nat) :
    ∀ (pairs : List (Nat × Nat)) (off : Nat),
      off + (pairs.map fun p => dataSize format mip_extent p.2).sum
          ≤ data.length →
      (uploadLoop format mip_extent data pairs off).1.map
          (fun w => (w.mip_level, w.origin, w.layout, w.extent))
        = pairs.map fun p =>
            (p.2, Origin3d.mk 0 0 p.1,
              TextureDataLayout.mk 0 (bytesPerRow format mip_extent p.2) 0,
              mipPhysical format mip_extent p.2)
  | [], off, hle => by simp [uploadLoop]
  | (layer, mip) :: rest, off, hle => by
    have hsz : off + dataSize format mip_extent mip ≤ data.length := by
      simp only [List.map_cons, List.sum_cons] at hle
      omega
    have ih := uploadLoop_fst_shape format mip_extent data rest
      (off + dataSize format mip_extent mip) (by
        simp only [List.map_cons, List.sum_cons] at hle
        omega)
    simp only [uploadLoop, if_pos hsz, List.map_cons, ih]

/-- On success, the byte slices handed to the write calls have, in order,
exactly the computed per-sub-image sizes. -/
theorem uploadLoop_fst_lengths (format : TextureFormat)
    (mip_extent : Extent3d) (data : List Nat) :
    ∀ (pairs : List (Nat × Nat)) (off : Nat),
      off + (pairs.map fun p => dataSize format mip_extent p.2).sum
          ≤ data.length →
      (uploadLoop format mip_extent data pairs off).1.map
          (fun w => w.contents.length)
        = pairs.map fun p => dataSize format mip_extent p.2
  | [], off, hle => by simp [uploadLoop]
  | (layer, mip) :: rest, off, hle => by
    have hsz : off + dataSize format mip_extent mip ≤ data.length := by
      simp only [List.map_cons, List.sum_cons] at hle
      omega
    have ih := uploadLoop_fst_lengths format mip_extent data rest
      (off + dataSize format mip_extent mip) (by
        simp only [List.map_cons, List.sum_cons] at hle
        omega)
    simp only [uploadLoop, if_pos hsz, List.map_cons, ih, List.length_take,
      List.length_drop]
    congr 1
    exact Nat.min_eq_left (by omega)

/-- On success, the concatenation of the handed byte slices is exactly the
slice of the source buffer from the starting offset spanning the sum of the
per-sub-image sizes: consecutive slices are adjacent, with no gap and no
overlap. -/
theorem uploadLoop_fst_flatten (format : TextureFormat)
    (mip_extent : Extent3d) (data : List Nat) :
    ∀ (pairs : List (Nat × Nat)) (off : Nat),
      off + (pairs.map fun p => dataSize format mip_extent p.2).sum
          ≤ data.length →
      ((uploadLoop format mip_extent data pairs off).1.map
          WriteCall.contents).flatten
        = (data.drop off).take
            (pairs.map fun p => dataSize format mip_extent p.2).sum
  | [], off, hle => by simp [uploadLoop]
  | (layer, mip) :: rest, off, hle => by
    have hsz : off + dataSize format mip_extent mip ≤ data.length := by
      simp only [List.map_cons, List.sum_cons] at hle
      omega
    have ih := uploadLoop_fst_flatten format mip_extent data rest
      (off + dataSize format mip_extent mip) (by
        simp only [List.map_cons, List.sum_cons] at hle
        omega)
    simp only [uploadLoop, if_pos hsz, List.map_cons, List.flatten_cons, ih,
      List.sum_cons]
    rw [List.take_add, List.drop_drop]

/-- The loop reads only the prefix of the source buffer covering the visited
sub-images: two buffers that agree on a prefix long enough to hold all the
remaining sub-image data produce identical write calls and identical
outcomes. -/
theorem uploadLoop_congr (format : TextureFormat) (mip_extent : Extent3d)
    (data1 data2 : List Nat) (N : Nat) (hpre : data1.take N = data2.take N)
    (hN1 : N ≤ data1.length) (hN2 : N ≤ data2.length) :
    ∀ (pairs : List (Nat × Nat)) (off : Nat),
      off + (pairs.map fun p => dataSize format mip_extent p.2).sum ≤ N →
      uploadLoop format mip_extent data1 pairs off
        = uploadLoop format mip_extent data2 pairs off
  | [], off, hle => by simp [uploadLoop]
  | (layer, mip) :: rest, off, hle => by
    have htake : ∀ m, m ≤ N → data1.take m = data2.take m := by
      intro m hm
      have h := congrArg (List.take m) hpre
      rwa [List.take_take, List.take_take, Nat.min_eq_left hm] at h
    have hsz : off + dataSize format mip_extent mip ≤ N := by
      simp only [List.map_cons, List.sum_cons] at hle
      omega
    have h1 : off + dataSize format mip_extent mip ≤ data1.length := by omega
    have h2 : off + dataSize format mip_extent mip ≤ data2.length := by omega
    have hslice : (data1.drop off).take (dataSize format mip_extent mip)
        = (data2.drop off).take (dataSize format mip_extent mip) := by
      rw [List.take_drop, List.take_drop, htake _ hsz]
    have ih := uploadLoop_congr format mip_extent data1 data2 N hpre hN1 hN2
      rest (off + dataSize format mip_extent mip) (by
        simp only [List.map_cons, List.sum_cons] at hle
        omega)
    simp only [uploadLoop, if_pos h1, if_pos h2, hslice, ih]

/-! ## Lemmas about make_spirv -/

/-- Branch equation: a length that is not a multiple of 4 yields the length
error. -/
theorem make_spirv_of_bad_len (data : List Nat) (h : data.length % 4 ≠ 0) :
    make_spirv data = .error (.lengthNotMultipleOf4 data.length) := by
  simp [make_spirv, h]

/-- Branch equation: an empty word sequence yields the indexing error. -/
theorem make_spirv_of_nil (data : List Nat) (h4 : data.length % 4 = 0)
    (hw : bytesToWords data = []) :
    make_spirv data = .error .indexOutOfRange := by
  simp [make_spirv, h4, hw]

/-- Branch equation: with a leading word present, the result is decided by
the comparison with the magic constant. -/
theorem make_spirv_of_cons (data : List Nat) (w : Nat) (rest : List Nat)
    (h4 : data.length % 4 = 0) (hw : bytesToWords data = w :: rest) :
    make_spirv data
      = if w = MAGIC_NUMBER then .ok (.SpirV (w :: rest))
        else .error (.wrongMagic w) := by
  by_cases hm : w = MAGIC_NUMBER
  · simp [make_spirv, h4, hw, hm]
  · simp [make_spirv, h4, hw, hm]

/-- Decoding four bytes to a word and re-serializing the word restores the
four bytes. -/
theorem wordOfBytes_bytes (b0 b1 b2 b3 : Nat) (h0 : b0 < 256) (h1 : b1 < 256)
    (h2 : b2 < 256) (h3 : b3 < 256) :
    wordOfBytes b0 b1 b2 b3 % 256 = b0 ∧
    wordOfBytes b0 b1 b2 b3 / 256 % 256 = b1 ∧
    wordOfBytes b0 b1 b2 b3 / 65536 % 256 = b2 ∧
    wordOfBytes b0 b1 b2 b3 / 16777216 % 256 = b3 := by
  unfold wordOfBytes
  omega

/-- Serializing the decoded word sequence of a 4-byte-aligned byte sequence
restores the byte sequence. -/
theorem wordsToBytes_bytesToWords :
    ∀ (data : List Nat), (∀ b ∈ data, b < 256) → data.length % 4 = 0 →
      wordsToBytes (bytesToWords data) = data
  | [], _, _ => rfl
  | [_], _, h4 => by simp at h4
  | [_, _], _, h4 => by simp at h4
  | [_, _, _], _, h4 => by simp at h4
  | b0 :: b1 :: b2 :: b3 :: rest, hb, h4 => by
    have ih := wordsToBytes_bytesToWords rest
      (fun b hbm => hb b (by simp [hbm]))
      (by simp only [List.length_cons] at h4 ⊢; omega)
    have hby := wordOfBytes_bytes b0 b1 b2 b3
      (hb b0 (by simp)) (hb b1 (by simp)) (hb b2 (by simp)) (hb b3 (by simp))
    simp only [bytesToWords, wordsToBytes, ih, hby.1, hby.2.1, hby.2.2.1,
      hby.2.2.2]

/-! ## Claim theorems: shader-source validator -/

/-- C4: make_spirv fails exactly when the input length is not a multiple of
4 (with the length-precondition error) or when the decoded leading word
differs from the magic constant; a non-multiple length yields the length
error naming the length, a present-but-wrong leading word yields the
magic-mismatch error naming the observed value, and every input whose length
is a multiple of 4 and whose leading word equals the magic constant succeeds
with the words as a binary shader source. -/
theorem make_spirv_error_spec (data : List Nat) :
    ((∃ e, make_spirv data = .error e) ↔
      data.length % 4 ≠ 0 ∨ (bytesToWords data).head? ≠ some MAGIC_NUMBER) ∧
    (data.length % 4 ≠ 0 →
      make_spirv data = .error (.lengthNotMultipleOf4 data.length)) ∧
    (∀ w : Nat, data.length % 4 = 0 → (bytesToWords data).head? = some w →
      w ≠ MAGIC_NUMBER → make_spirv data = .error (.wrongMagic w)) ∧
    (data.length % 4 = 0 → (bytesToWords data).head? = some MAGIC_NUMBER →
      make_spirv data = .ok (ShaderSource.SpirV (bytesToWords data))) := by
  by_cases h4 : data.length % 4 = 0
  · cases hw : bytesToWords data with
    | nil =>
      refine ⟨⟨fun _ => by simp [hw], fun _ => ?_⟩, fun h => absurd h4 h,
        fun w _ hhead _ => by simp [hw] at hhead, fun _ hhead => ?_⟩
      · exact ⟨.indexOutOfRange, make_spirv_of_nil data h4 hw⟩
      · simp [hw] at hhead
    | cons w rest =>
      have hbranch := make_spirv_of_cons data w rest h4 hw
      by_cases hm : w = MAGIC_NUMBER
      · refine ⟨⟨fun he => ?_, fun hor => ?_⟩, fun h => absurd h4 h,
          fun v _ hhead hv => ?_, fun _ _ => ?_⟩
        · obtain ⟨e, he⟩ := he
          rw [hbranch, if_pos hm] at he
          exact absurd he (by simp)
        · rcases hor with hor | hor
          · exact absurd h4 hor
          · exact absurd (by simp [hw, hm]) hor
        · simp only [hw, List.head?_cons, Option.some.injEq] at hhead
          exact absurd (hhead ▸ hm) hv
        · rw [hbranch, if_pos hm]
      · refine ⟨⟨fun _ => ?_, fun _ => ?_⟩, fun h => absurd h4 h,
          fun v _ hhead hv => ?_, fun _ hhead => ?_⟩
        · right
          simp [hw, hm]
        · exact ⟨.wrongMagic w, by rw [hbranch, if_neg hm]⟩
        · simp only [hw, List.head?_cons, Option.some.injEq] at hhead
          rw [hbranch, if_neg hm, hhead]
        · simp only [hw, List.head?_cons, Option.some.injEq] at hhead
          exact absurd hhead hm
  · refine ⟨⟨fun _ => Or.inl h4, fun _ => ?_⟩, fun _ => ?_,
      fun w hq => absurd hq h4, fun hq => absurd hq h4⟩
    · exact ⟨.lengthNotMultipleOf4 data.length, make_spirv_of_bad_len data h4⟩
    · exact make_spirv_of_bad_len data h4

/-- Witness for C4: a 1-byte input fails with the length error, four zero
bytes fail with the magic-mismatch error naming the observed word 0, and the
four little-endian bytes of the magic constant succeed. -/
theorem make_spirv_error_spec_witness :
    make_spirv [1] = .error (.lengthNotMultipleOf4 1) ∧
    make_spirv [0, 0, 0, 0] = .error (.wrongMagic 0) ∧
    make_spirv [3, 2, 35, 7]
      = .ok (ShaderSource.SpirV (bytesToWords [3, 2, 35, 7])) :=
  ⟨(make_spirv_error_spec [1]).2.1 (by decide),
   (make_spirv_error_spec [0, 0, 0, 0]).2.2.1 0 (by decide) rfl (by decide),
   (make_spirv_error_spec [3, 2, 35, 7]).2.2.2 (by decide) rfl⟩

/-- C5: for every byte sequence accepted by make_spirv, serializing the
produced 32-bit words back to bytes with the same endianness reproduces the
input exactly (the in-place and the copy branch produce the same words, see
bytesToWords). -/
theorem make_spirv_roundtrip (data : List Nat) (hb : ∀ b ∈ data, b < 256)
    (ws : List Nat) (h : make_spirv data = .ok (ShaderSource.SpirV ws)) :
    wordsToBytes ws = data := by
  by_cases h4 : data.length % 4 = 0
  · cases hw : bytesToWords data with
    | nil =>
      rw [make_spirv_of_nil data h4 hw] at h
      exact absurd h (by simp)
    | cons w rest =>
      rw [make_spirv_of_cons data w rest h4 hw] at h
      by_cases hm : w = MAGIC_NUMBER
      · rw [if_pos hm] at h
        simp only [Except.ok.injEq, ShaderSource.SpirV.injEq] at h
        rw [← h, ← hw]
        exact wordsToBytes_bytesToWords data hb h4
      · rw [if_neg hm] at h
        exact absurd h (by simp)
  · rw [make_spirv_of_bad_len data h4] at h
    exact absurd h (by simp)

/-- Witness for C5: the magic bytes themselves round-trip. -/
theorem make_spirv_roundtrip_witness :
    wordsToBytes [MAGIC_NUMBER] = [3, 2, 35, 7] :=
  make_spirv_roundtrip [3, 2, 35, 7] (by decide) [MAGIC_NUMBER] rfl

/-- C9: the empty input passes the length check (0 is a multiple of 4) but
fails with the out-of-range indexing error when reading the leading word,
not with a magic-mismatch diagnostic; producing the magic-mismatch error
requires a non-empty input. -/
theorem make_spirv_empty_input :
    make_spirv ([] : List Nat) = .error MakeSpirvError.indexOutOfRange ∧
    ([] : List Nat).length % 4 = 0 ∧
    ∀ (data : List Nat) (w : Nat),
      make_spirv data = .error (.wrongMagic w) → data ≠ [] := by
  refine ⟨rfl, rfl, fun data w h hd => ?_⟩
  rw [hd] at h
  simp [make_spirv, bytesToWords] at h

/-- Witness for C9: four zero bytes produce the magic-mismatch error, so by
the theorem they are not the empty input. -/
theorem make_spirv_empty_input_witness :
    ([0, 0, 0, 0] : List Nat) ≠ [] :=
  make_spirv_empty_input.2.2 [0, 0, 0, 0] 0 rfl

/-! ## Claim theorems: buffer initializer -/

/-- C1: for contents of length L, the returned buffer has visible size
L + (A - L % A) with A the copy-buffer alignment constant — a full extra
alignment block of A bytes when L is already a multiple of A — its first L
bytes equal the contents exactly, and every byte from position L up to the
padded size is zero. -/
theorem create_buffer_init_spec (descriptor : BufferInitDescriptor) :
    (create_buffer_init descriptor).size
      = descriptor.contents.length
        + (COPY_BUFFER_ALIGNMENT
            - descriptor.contents.length % COPY_BUFFER_ALIGNMENT) ∧
    (descriptor.contents.length % COPY_BUFFER_ALIGNMENT = 0 →
      (create_buffer_init descriptor).size
        = descriptor.contents.length + COPY_BUFFER_ALIGNMENT) ∧
    (create_buffer_init descriptor).data.take descriptor.contents.length
      = descriptor.contents ∧
    (create_buffer_init descriptor).data.drop descriptor.contents.length
      = List.replicate
          (COPY_BUFFER_ALIGNMENT
            - descriptor.contents.length % COPY_BUFFER_ALIGNMENT) 0 ∧
    (create_buffer_init descriptor).data.length
      = (create_buffer_init descriptor).size := by
  refine ⟨?_, ?_, ?_, ?_, ?_⟩
  · simp only [create_buffer_init]
    omega
  · intro h
    simp only [create_buffer_init, h]
    omega
  · simp only [create_buffer_init]
    rw [List.take_left]
  · simp only [create_buffer_init]
    rw [List.drop_left]
    congr 1
    omega
  · simp only [create_buffer_init, List.length_append, List.length_replicate]
    omega

/-- Witness for C1: contents of length 4 (already aligned) receive a full
extra alignment block of zeros. -/
theorem create_buffer_init_spec_witness :
    (create_buffer_init ⟨none, [1, 2, 3, 4], 0⟩).size
      = ([1, 2, 3, 4] : List Nat).length + COPY_BUFFER_ALIGNMENT :=
  (create_buffer_init_spec ⟨none, [1, 2, 3, 4], 0⟩).2.1 (by decide)

/-! ## Lemmas about create_texture_with_data -/

/-- Unfolding of create_texture_with_data when the mip level count fits in a
u8. -/
theorem create_texture_with_data_of_le (desc : TextureDescriptor)
    (data : List Nat) (hc : desc.mip_level_count ≤ 255) :
    create_texture_with_data desc data
      = (Event.createTexture desc ::
          (uploadLoop desc.format (mipExtentOf desc) data
            (descPairs desc) 0).1.map Event.writeTexture,
         (uploadLoop desc.format (mipExtentOf desc) data
           (descPairs desc) 0).2) := by
  simp [create_texture_with_data, hc]

/-- A successful call implies the mip level count fits in a u8. -/
theorem mip_count_le_of_ok (desc : TextureDescriptor) (data : List Nat)
    (h : (create_texture_with_data desc data).2 = .ok ()) :
    desc.mip_level_count ≤ 255 := by
  by_contra hc
  simp [create_texture_with_data, hc] at h

/-- The write calls of a successful call are the write calls of the upload
loop started at offset 0. -/
theorem traceWrites_create_texture_with_data (desc : TextureDescriptor)
    (data : List Nat) (hc : desc.mip_level_count ≤ 255) :
    traceWrites (create_texture_with_data desc data).1
      = (uploadLoop desc.format (mipExtentOf desc) data
          (descPairs desc) 0).1 := by
  rw [create_texture_with_data_of_le desc data hc, traceWrites_create_cons,
    traceWrites_map]

/-- Every pair visited for a descriptor has its layer below the layer
iteration count and its mip level below the mip level count. -/
theorem mem_descPairs (desc : TextureDescriptor) (p : Nat × Nat)
    (hp : p ∈ descPairs desc) :
    p.1 < layerIterations desc ∧ p.2 < desc.mip_level_count := by
  simp only [descPairs, subImagePairs, List.mem_flatMap, List.mem_map,
    List.mem_range] at hp
  obtain ⟨layer, hlayer, mip, hmip, hpe⟩ := hp
  rw [← hpe]
  exact ⟨hlayer, hmip⟩

/-- Every issued write call corresponds to a visited (layer, mip) pair and
carries the fields computed for that pair; its slice always has exactly the
computed byte size. -/
theorem uploadLoop_mem_fst (format : TextureFormat) (mip_extent : Extent3d)
    (data : List Nat) :
    ∀ (pairs : List (Nat × Nat)) (off : Nat) (w : WriteCall),
      w ∈ (uploadLoop format mip_extent data pairs off).1 →
      ∃ layer mip, (layer, mip) ∈ pairs ∧ w.mip_level = mip ∧
        w.origin = Origin3d.mk 0 0 layer ∧
        w.layout = TextureDataLayout.mk 0 (bytesPerRow format mip_extent mip) 0 ∧
        w.extent = mipPhysical format mip_extent mip ∧
        w.contents.length = dataSize format mip_extent mip
  | [], off, w, hw => by simp [uploadLoop] at hw
  | (layer, mip) :: rest, off, w, hw => by
    by_cases h : off + dataSize format mip_extent mip ≤ data.length
    · rw [uploadLoop, if_pos h] at hw
      rcases List.mem_cons.mp hw with hw | hw
      · refine ⟨layer, mip, by simp, ?_, ?_, ?_, ?_, ?_⟩ <;> rw [hw]
        simp only [List.length_take, List.length_drop]
        omega
      · obtain ⟨l, m, hmem, hrest⟩ := uploadLoop_mem_fst format mip_extent
          data rest (off + dataSize format mip_extent mip) w hw
        exact ⟨l, m, List.mem_cons_of_mem _ hmem, hrest⟩
    · rw [uploadLoop, if_neg h] at hw
      simp at hw

/-- When the true per-mip byte quantities fit in a u32, the u32 arithmetic
of the loop computes them exactly. -/
theorem dataSize_eq_of_lt (format : TextureFormat) (mip_extent : Extent3d)
    (mip : Nat)
    (hpr : widthBlocks format mip_extent mip * format.block_size
      < UINT32_MOD)
    (hsz : widthBlocks format mip_extent mip * format.block_size
      * heightBlocks format mip_extent mip < UINT32_MOD) :
    bytesPerRow format mip_extent mip
        = widthBlocks format mip_extent mip * format.block_size ∧
    dataSize format mip_extent mip
        = widthBlocks format mip_extent mip
          * heightBlocks format mip_extent mip * format.block_size := by
  have hb : bytesPerRow format mip_extent mip
      = widthBlocks format mip_extent mip * format.block_size := by
    simp only [bytesPerRow, TextureFormat.describe]
    exact Nat.mod_eq_of_lt hpr
  refine ⟨hb, ?_⟩
  simp only [dataSize, hb]
  rw [Nat.mod_eq_of_lt hsz]
  ring

/-! ## Claim theorems: texture uploader -/

/-- C2: on a successful upload the byte slices handed to the write calls
have, in (layer, mip) order, exactly the computed per-sub-image sizes, and
their concatenation is exactly the prefix of the source buffer of length the
sum of those sizes: the running offset starts at 0, each slice begins where
the previous one ended (no gap, no overlap), and the consumed prefix length
equals the sum of the per-sub-image byte sizes. -/
theorem create_texture_with_data_partition (desc : TextureDescriptor)
    (data : List Nat)
    (h : (create_texture_with_data desc data).2 = .ok ()) :
    (traceWrites (create_texture_with_data desc data).1).map
        (fun w => w.contents.length) = descSizes desc ∧
    ((traceWrites (create_texture_with_data desc data).1).map
        WriteCall.contents).flatten = data.take (descSizes desc).sum ∧
    (descSizes desc).sum ≤ data.length := by
  have hc := mip_count_le_of_ok desc data h
  rw [create_texture_with_data_of_le desc data hc] at h
  have hS := (uploadLoop_ok_iff desc.format (mipExtentOf desc) data
    (descPairs desc) 0 (Nat.zero_le _)).mp h
  rw [traceWrites_create_texture_with_data desc data hc]
  refine ⟨?_, ?_, ?_⟩
  · have hl := uploadLoop_fst_lengths desc.format (mipExtentOf desc) data
      (descPairs desc) 0 hS
    simpa [descSizes] using hl
  · have hf := uploadLoop_fst_flatten desc.format (mipExtentOf desc) data
      (descPairs desc) 0 hS
    simpa [descSizes] using hf
  · simpa [descSizes] using hS

/-- Witness for C2: a 1x1 one-mip texture consumes exactly the one-byte
prefix of its source buffer. -/
theorem create_texture_with_data_partition_witness :
    (traceWrites (create_texture_with_data
        ⟨⟨1, 1, 1⟩, 1, .D2, ⟨(1, 1), 1⟩⟩ [5, 9]).1).map
        (fun w => w.contents.length)
      = descSizes ⟨⟨1, 1, 1⟩, 1, .D2, ⟨(1, 1), 1⟩⟩ :=
  (create_texture_with_data_partition ⟨⟨1, 1, 1⟩, 1, .D2, ⟨(1, 1), 1⟩⟩
    [5, 9] rfl).1

/-- C7: on a successful upload, the sequence of (origin z, mip level) pairs
of the issued write calls is exactly the visited (layer, mip) sequence; for
a 3D texture there is exactly one layer iteration whose per-mip base extent
is the full size (full depth) and every origin z is 0; otherwise there is
one layer iteration per value of the depth field, the per-mip base extent
has depth fixed at 1 (so every write extent has depth 1) and the origin of a
write is (0, 0, layer); within each layer, mip levels are visited 0-based in
ascending order. -/
theorem create_texture_with_data_iteration (desc : TextureDescriptor)
    (data : List Nat)
    (h : (create_texture_with_data desc data).2 = .ok ()) :
    (traceWrites (create_texture_with_data desc data).1).map
        (fun w => (w.origin.z, w.mip_level)) = descPairs desc ∧
    (desc.dimension = TextureDimension.D3 →
      layerIterations desc = 1 ∧ mipExtentOf desc = desc.size ∧
      descPairs desc
        = (List.range desc.mip_level_count).map fun mip => (0, mip)) ∧
    (desc.dimension ≠ TextureDimension.D3 →
      layerIterations desc = desc.size.depth ∧
      mipExtentOf desc = { desc.size with depth := 1 } ∧
      ∀ w ∈ traceWrites (create_texture_with_data desc data).1,
        w.extent.depth = 1) ∧
    (∀ w ∈ traceWrites (create_texture_with_data desc data).1,
      w.origin.x = 0 ∧ w.origin.y = 0 ∧
      w.extent = mipPhysical desc.format (mipExtentOf desc) w.mip_level) := by
  have hc := mip_count_le_of_ok desc data h
  rw [create_texture_with_data_of_le desc data hc] at h
  have hS := (uploadLoop_ok_iff desc.format (mipExtentOf desc) data
    (descPairs desc) 0 (Nat.zero_le _)).mp h
  have hshape := uploadLoop_fst_shape desc.format (mipExtentOf desc) data
    (descPairs desc) 0 hS
  rw [traceWrites_create_texture_with_data desc data hc]
  refine ⟨?_, ?_, ?_, ?_⟩
  · have hm := congrArg
      (List.map fun q : Nat × Origin3d × TextureDataLayout × Extent3d =>
        (q.2.1.z, q.1)) hshape
    rw [List.map_map, List.map_map] at hm
    simpa [Function.comp_def, Prod.mk.eta] using hm
  · intro hdim
    refine ⟨by simp [layerIterations, hdim], by simp [mipExtentOf, hdim], ?_⟩
    have hr1 : List.range 1 = [0] := rfl
    simp [descPairs, subImagePairs, layerIterations, hdim, hr1]
  · intro hdim
    refine ⟨by simp [layerIterations, hdim], by simp [mipExtentOf, hdim], ?_⟩
    intro w hw
    obtain ⟨l, m, _, _, _, _, hext, _⟩ := uploadLoop_mem_fst desc.format
      (mipExtentOf desc) data (descPairs desc) 0 w hw
    rw [hext]
    have hme : mipExtentOf desc = { desc.size with depth := 1 } := by
      simp [mipExtentOf, hdim]
    simp only [mipPhysical, Extent3d.physical_size, Extent3d.at_mip_level,
      hme]
    exact Nat.max_eq_left (Nat.div_le_self 1 _)
  · intro w hw
    obtain ⟨l, m, _, hml, horig, _, hext, _⟩ := uploadLoop_mem_fst desc.format
      (mipExtentOf desc) data (descPairs desc) 0 w hw
    refine ⟨by rw [horig], by rw [horig], ?_⟩
    rw [hext, hml]

/-- Witness for C7: a 2-layer 1x1 texture issues writes at origin z 0 and 1,
each at mip 0. -/
theorem create_texture_with_data_iteration_witness :
    (traceWrites (create_texture_with_data
        ⟨⟨1, 1, 2⟩, 1, .D2, ⟨(1, 1), 1⟩⟩ [5, 9]).1).map
        (fun w => (w.origin.z, w.mip_level))
      = descPairs ⟨⟨1, 1, 2⟩, 1, .D2, ⟨(1, 1), 1⟩⟩ :=
  (create_texture_with_data_iteration ⟨⟨1, 1, 2⟩, 1, .D2, ⟨(1, 1), 1⟩⟩
    [5, 9] rfl).1

/-- C6: on a successful upload in which the per-mip byte quantities fit in a
u32, every write call hands a slice of exactly
(physical width / block width) * (physical height / block height) *
block size bytes, with bytes_per_row equal to
(physical width / block width) * block size, rows_per_image unset (0), and
the copy extent equal to the physical (block-rounded) mip extent. -/
theorem create_texture_with_data_subimage_sizes (desc : TextureDescriptor)
    (data : List Nat)
    (h : (create_texture_with_data desc data).2 = .ok ())
    (hov : ∀ mip, mip < desc.mip_level_count →
      widthBlocks desc.format (mipExtentOf desc) mip * desc.format.block_size
          < UINT32_MOD ∧
      widthBlocks desc.format (mipExtentOf desc) mip * desc.format.block_size
          * heightBlocks desc.format (mipExtentOf desc) mip < UINT32_MOD) :
    ∀ w ∈ traceWrites (create_texture_with_data desc data).1,
      w.contents.length
        = (mipPhysical desc.format (mipExtentOf desc) w.mip_level).width
              / desc.format.block_dimensions.1
          * ((mipPhysical desc.format (mipExtentOf desc) w.mip_level).height
              / desc.format.block_dimensions.2)
          * desc.format.block_size ∧
      w.layout.bytes_per_row
        = (mipPhysical desc.format (mipExtentOf desc) w.mip_level).width
            / desc.format.block_dimensions.1 * desc.format.block_size ∧
      w.layout.rows_per_image = 0 ∧
      w.extent = mipPhysical desc.format (mipExtentOf desc) w.mip_level := by
  have hc := mip_count_le_of_ok desc data h
  rw [traceWrites_create_texture_with_data desc data hc]
  intro w hw
  obtain ⟨l, m, hmem, hml, horig, hlay, hext, hlen⟩ := uploadLoop_mem_fst
    desc.format (mipExtentOf desc) data (descPairs desc) 0 w hw
  have hmlt := (mem_descPairs desc (l, m) hmem).2
  obtain ⟨hpr, hsz⟩ := hov m hmlt
  obtain ⟨hbpr, hdsz⟩ := dataSize_eq_of_lt desc.format (mipExtentOf desc) m
    hpr hsz
  refine ⟨?_, ?_, ?_, ?_⟩
  · rw [hlen, hml, hdsz]
    simp only [widthBlocks, heightBlocks, TextureFormat.describe]
  · rw [hlay, hml, hbpr]
    simp only [widthBlocks, TextureFormat.describe]
  · rw [hlay]
  · rw [hext, hml]

set_option maxRecDepth 40000 in
/-- Witness for C6: base extent 8x8 with 4x4 blocks of 16 bytes, one mip,
one layer: the single issued write hands (8/4) * (8/4) * 16 = 64 bytes with
bytes_per_row (8/4) * 16 = 32. -/
theorem create_texture_with_data_subimage_sizes_witness :
    (WriteCall.mk 0 ⟨0, 0, 0⟩ (List.replicate 64 0) ⟨0, 32, 0⟩
        ⟨8, 8, 1⟩).contents.length
      = (mipPhysical ⟨(4, 4), 16⟩
            (mipExtentOf ⟨⟨8, 8, 1⟩, 1, .D2, ⟨(4, 4), 16⟩⟩) 0).width / 4
        * ((mipPhysical ⟨(4, 4), 16⟩
            (mipExtentOf ⟨⟨8, 8, 1⟩, 1, .D2, ⟨(4, 4), 16⟩⟩) 0).height / 4)
        * 16 :=
  ((create_texture_with_data_subimage_sizes
      ⟨⟨8, 8, 1⟩, 1, .D2, ⟨(4, 4), 16⟩⟩ (List.replicate 64 0) rfl
      (by decide))
    (WriteCall.mk 0 ⟨0, 0, 0⟩ (List.replicate 64 0) ⟨0, 32, 0⟩ ⟨8, 8, 1⟩)
    (by decide)).1

/-- C8: when the source buffer is shorter than the sum of the computed
per-sub-image sizes (and the mip level count fits in a u8, so that the loop
is reached), the call ends in a slice-out-of-bounds error carrying the
buffer length, and the slices handed to the write calls issued before the
failure concatenate to a prefix of the source buffer: no slice ever extends
beyond the end of the buffer. -/
theorem create_texture_with_data_short_buffer (desc : TextureDescriptor)
    (data : List Nat) (hc : desc.mip_level_count ≤ 255)
    (hlt : data.length < (descSizes desc).sum) :
    (∃ s e, (create_texture_with_data desc data).2
        = .error (.sliceOutOfBounds s e data.length)) ∧
    ((traceWrites (create_texture_with_data desc data).1).map
        WriteCall.contents).flatten <+: data := by
  constructor
  · rw [create_texture_with_data_of_le desc data hc]
    exact uploadLoop_err_of_lt desc.format (mipExtentOf desc) data
      (descPairs desc) 0 (Nat.zero_le _) (by simpa [descSizes] using hlt)
  · rw [traceWrites_create_texture_with_data desc data hc]
    have hp := uploadLoop_flatten_prefix desc.format (mipExtentOf desc) data
      (descPairs desc) 0
    simpa using hp

/-- Witness for C8: an empty source buffer for a 1x1 one-mip texture fails
out of bounds. -/
theorem create_texture_with_data_short_buffer_witness :
    ∃ s e, (create_texture_with_data
        ⟨⟨1, 1, 1⟩, 1, .D2, ⟨(1, 1), 1⟩⟩ []).2
      = .error (.sliceOutOfBounds s e 0) :=
  (create_texture_with_data_short_buffer ⟨⟨1, 1, 1⟩, 1, .D2, ⟨(1, 1), 1⟩⟩
    [] (by decide) (by decide)).1

/-- C10: the call depends only on the prefix of the source buffer of length
the sum of the computed sub-image sizes: two buffers agreeing on that prefix
(each long enough to contain it) produce identical traces and both succeed —
trailing bytes beyond the computed total are ignored with no check that the
buffer was fully consumed. -/
theorem create_texture_with_data_prefix_only (desc : TextureDescriptor)
    (data1 data2 : List Nat) (hc : desc.mip_level_count ≤ 255)
    (h1 : (descSizes desc).sum ≤ data1.length)
    (h2 : (descSizes desc).sum ≤ data2.length)
    (hpre : data1.take (descSizes desc).sum
      = data2.take (descSizes desc).sum) :
    create_texture_with_data desc data1 = create_texture_with_data desc data2
      ∧ (create_texture_with_data desc data1).2 = .ok () := by
  have hcongr := uploadLoop_congr desc.format (mipExtentOf desc) data1 data2
    ((descSizes desc).sum) hpre h1 h2 (descPairs desc) 0
    (by simp [descSizes])
  constructor
  · rw [create_texture_with_data_of_le desc data1 hc,
      create_texture_with_data_of_le desc data2 hc, hcongr]
  · rw [create_texture_with_data_of_le desc data1 hc]
    exact (uploadLoop_ok_iff desc.format (mipExtentOf desc) data1
      (descPairs desc) 0 (Nat.zero_le _)).mpr (by simpa [descSizes] using h1)

/-- Witness for C10: a one-byte buffer and the same byte with a trailing
extra byte produce identical calls and succeed. -/
theorem create_texture_with_data_prefix_only_witness :
    create_texture_with_data ⟨⟨1, 1, 1⟩, 1, .D2, ⟨(1, 1), 1⟩⟩ [5]
      = create_texture_with_data ⟨⟨1, 1, 1⟩, 1, .D2, ⟨(1, 1), 1⟩⟩ [5, 9] :=
  (create_texture_with_data_prefix_only ⟨⟨1, 1, 1⟩, 1, .D2, ⟨(1, 1), 1⟩⟩
    [5] [5, 9] (by decide) (by decide) (by decide) rfl).1

/-- C3 counterexample: with mip level count 256 the call does fail with the
overflow precondition error before any write call, but the texture creation
request has already been issued to the external collaborator before the
failure, refuting the claim that no texture is created prior to it. -/
theorem create_texture_with_data_overflow_counterexample :
    (create_texture_with_data ⟨⟨1, 1, 1⟩, 256, .D2, ⟨(1, 1), 1⟩⟩ []).2
      = .error (.mipCountOverflow 256) ∧
    Event.createTexture ⟨⟨1, 1, 1⟩, 256, .D2, ⟨(1, 1), 1⟩⟩
      ∈ (create_texture_with_data ⟨⟨1, 1, 1⟩, 256, .D2, ⟨(1, 1), 1⟩⟩ []).1 := by
  constructor
  · rfl
  · simp [create_texture_with_data]

/-- C3 (amended): for every descriptor whose mip level count does not fit in
8 bits, create_texture_with_data fails with the overflow precondition error
naming the count and issues no write call — but the texture itself has
already been created via the external collaborator before the check runs. -/
theorem create_texture_with_data_overflow (desc : TextureDescriptor)
    (data : List Nat) (h : 255 < desc.mip_level_count) :
    create_texture_with_data desc data
      = ([Event.createTexture desc],
         .error (.mipCountOverflow desc.mip_level_count)) := by
  simp [create_texture_with_data, Nat.not_le.mpr h]

/-- Witness for C3 (amended): mip level count 256. -/
theorem create_texture_with_data_overflow_witness :
    create_texture_with_data ⟨⟨1, 1, 1⟩, 256, .D2, ⟨(1, 1), 1⟩⟩ []
      = ([Event.createTexture ⟨⟨1, 1, 1⟩, 256, .D2, ⟨(1, 1), 1⟩⟩],
         .error (.mipCountOverflow 256)) :=
  create_texture_with_data_overflow ⟨⟨1, 1, 1⟩, 256, .D2, ⟨(1, 1), 1⟩⟩ []
    (by decide)

end Wgpu
